import Mathlib

/-!
Verification development for the vibe-family-calendar background reminder and
sync engines.  The definitions below are a shallow embedding of the worker code
in `client/public/reminder-worker.js`, the revised reminder worker, the parser
in `client/src/lib/reminder-utils.ts` and `client/public/sync-worker.js`.
Timestamps are modelled as integer milliseconds (JavaScript `Date.getTime()`),
the JS `Set`s of reminder-id strings are modelled as duplicate-free lists of
reminder keys `(eventId, label, fireTimeMs)`.
-/

namespace VibeCal
/-- JavaScript `text.includes(pat)`: `pat` occurs as a contiguous substring. -/
def includesStr (text pat : String) : Bool :=
  decide (List.IsInfix pat.data text.data)

/-- `reminder-utils.ts` / revised worker `parseReminders` element:
the ordered most-specific-first chain, `0` meaning "no pattern matched". -/
def parseOffsetMinutes (reminderText : String) : Nat :=
  if includesStr reminderText "15 minutes" then 15
  else if includesStr reminderText "30 minutes" then 30
  else if includesStr reminderText "5 minutes" then 5
  else if includesStr reminderText "2 minutes" then 2
  else if includesStr reminderText "1 minute" then 1
  else if includesStr reminderText "1 hour" then 60
  else if includesStr reminderText "1 day" then 1440
  else 0

structure Reminder where
  text : String
  offsetMinutes : Nat
deriving DecidableEq, Repr

/-- `parseReminders` of `reminder-utils.ts` and of the revised reminder worker:
map each label through the chain, drop the unparseable ones. -/
def parseReminders (reminders : List String) : List Reminder :=
  (reminders.map fun t => ⟨t, parseOffsetMinutes t⟩).filter
    fun r => 0 < r.offsetMinutes

/-- The inline parsing chain of `client/public/reminder-worker.js`
`processReminders`/`initializePastReminders`: patterns are tested in the order
`"1 minute"`, `"5 minutes"`, `"15 minutes"`, `"30 minutes"`, `"1 hour"`,
`"1 day"`; `none` when nothing matches (reminderTime stays null). -/
def publicChainOffset (reminderText : String) : Option Nat :=
  if includesStr reminderText "1 minute" then some 1
  else if includesStr reminderText "5 minutes" then some 5
  else if includesStr reminderText "15 minutes" then some 15
  else if includesStr reminderText "30 minutes" then some 30
  else if includesStr reminderText "1 hour" then some 60
  else if includesStr reminderText "1 day" then some 1440
  else none

/-- The ordered table of section 4.1 of the design document, written from the
spec's words: first match in the most-specific-first canonical table. -/
def specParserTable : List (String × Nat) :=
  [("15 minutes", 15), ("30 minutes", 30), ("5 minutes", 5), ("2 minutes", 2),
   ("1 minute", 1), ("1 hour", 60), ("1 day", 1440)]

def specParse (label : String) : Option Nat :=
  (specParserTable.find? fun p => includesStr label p.1).map Prod.snd

structure Event where
  id : Nat
  startTime : Int
  reminders : List String
deriving DecidableEq, Repr

/-- An event together with its parsed reminders (the `{...event,
parsedReminders}` objects built in `updateEvents`). -/
structure PEvent where
  id : Nat
  startTime : Int
  reminders : List String
  parsedReminders : List Reminder
deriving DecidableEq, Repr

def parseEvent (e : Event) : PEvent :=
  ⟨e.id, e.startTime, e.reminders, parseReminders e.reminders⟩

/-- Reminder identity `(eventId, label, fireTime)`; the source concatenates
the three components into the id string. -/
abbrev RKey := Nat × String × Int

def fireTimeMs (startTime : Int) (offsetMinutes : Nat) : Int :=
  startTime - (offsetMinutes : Int) * 60000

def keyOf (e : PEvent) (r : Reminder) : RKey :=
  (e.id, r.text, fireTimeMs e.startTime r.offsetMinutes)

def keyFire (k : RKey) : Int := k.2.2

/-- All reminder keys of the working set, in the nested iteration order of the
worker's `forEach` loops. -/
def allKeys (evs : List PEvent) : List RKey :=
  evs.flatMap fun e => e.parsedReminders.map (keyOf e)

def addKey (k : RKey) (l : List RKey) : List RKey :=
  if k ∈ l then l else k :: l

def addKeys (l : List RKey) (ks : List RKey) : List RKey :=
  ks.foldl (fun acc k => addKey k acc) l

def countKey (k : RKey) : List RKey → Nat
  | [] => 0
  | x :: xs => (if x = k then 1 else 0) + countKey k xs

/-- Messages the worker posts to the main thread. -/
inductive Msg where
  | remindersTriggered (keys : List RKey)
  | heartbeat (timestamp : Int) (eventsCount checkedCount : Nat)
  | workerError (retryCount nextRetryIn : Nat)
  | workerRestarted
deriving DecidableEq, Repr

/-- The mutable fields of the `ReminderWorker` singleton.  `tickTimer` models
the `intervalId` handle holding a pending `processReminders` timeout (with its
delay); `cooldownTimers` counts pending `setTimeout(startProcessing, 5000)`
callbacks created by `restart()`, which are *not* stored in `intervalId`. -/
structure WState where
  events : List PEvent
  checkedReminders : List RKey
  dismissedReminders : List RKey
  retryCount : Nat
  isRunning : Bool
  tickTimer : Option Nat
  cooldownTimers : Nat
deriving DecidableEq, Repr

def maxRetries : Nat := 5

/-- Delay computed by `scheduleNextCheck`: base 15000 ms, else exponential
backoff `min(1000 * 2^retryCount, 300000)`. -/
def delayFor (retryCount : Nat) : Nat :=
  if retryCount > 0 then min (1000 * 2 ^ retryCount) 300000 else 15000

def scheduleNextCheck (s : WState) : WState :=
  if s.isRunning then { s with tickTimer := some (delayFor s.retryCount) } else s

def startProcessing (s : WState) : WState :=
  if s.isRunning then s else scheduleNextCheck { s with isRunning := true }

def stopProcessing (s : WState) : WState :=
  { s with isRunning := false, tickTimer := none }

/-- `restart()`: reset failures, clear checked (dismissed kept), emit
`WORKER_RESTARTED`, and schedule a `startProcessing` callback after 5 s. -/
def restartOp (s : WState) : WState × List Msg :=
  ({ s with retryCount := 0, checkedReminders := [],
            cooldownTimers := s.cooldownTimers + 1 },
   [Msg.workerRestarted])

/-- The inner double `forEach` of `processReminders`, flattened over the keys
of the working set: thread the growing `checkedReminders` set and collect the
triggered keys in order. -/
def processKeys (now : Int) (dismissed : List RKey) :
    List RKey → List RKey → List RKey × List RKey
  | checked, [] => (checked, [])
  | checked, k :: ks =>
    if (0 ≤ now - keyFire k ∧ now - keyFire k ≤ 120000) ∧
        k ∉ checked ∧ k ∉ dismissed then
      ((processKeys now dismissed (k :: checked) ks).1,
        k :: (processKeys now dismissed (k :: checked) ks).2)
    else
      processKeys now dismissed checked ks

/-- `processReminders()`.  `fails` models an exception thrown by the `try`
body; the `catch` path then increments the capped failure counter, posts
`WORKER_ERROR`, and on reaching the cap performs `restart()` and returns
without rescheduling. -/
def processReminders (s : WState) (now : Int) (fails : Bool) :
    WState × List Msg :=
  if fails then
    let rc := min (s.retryCount + 1) maxRetries
    let err := Msg.workerError rc (min (1000 * 2 ^ rc) 300000)
    if maxRetries ≤ rc then
      (((restartOp { s with retryCount := rc }).1),
        err :: (restartOp { s with retryCount := rc }).2)
    else
      (scheduleNextCheck { s with retryCount := rc }, [err])
  else
    let r := processKeys now s.dismissedReminders s.checkedReminders
      (allKeys s.events)
    (scheduleNextCheck { s with checkedReminders := r.1, retryCount := 0 },
      (if r.2 ≠ [] then [Msg.remindersTriggered r.2] else []) ++
        [Msg.heartbeat now s.events.length r.1.length])

/-- `initializePastReminders`: mark every reminder whose fire time is more
than 2 minutes in the past as already checked (no message is posted). -/
def initializePastReminders (now : Int) (evs : List PEvent)
    (checked : List RKey) : List RKey :=
  addKeys checked ((allKeys evs).filter fun k => decide (120000 < now - keyFire k))

/-- `updateEvents(newEvents)`: parse, backfill iff the previous working set
was empty, replace the working set wholesale, reset the failure counter. -/
def updateEvents (s : WState) (newEvents : List Event) (now : Int) : WState :=
  let pevs := newEvents.map parseEvent
  { s with
    events := pevs,
    checkedReminders :=
      if s.events = [] then initializePastReminders now pevs s.checkedReminders
      else s.checkedReminders,
    retryCount := 0 }

/-- `dismissReminder(id)`: add to both sets. -/
def dismissReminder (s : WState) (k : RKey) : WState :=
  { s with dismissedReminders := addKey k s.dismissedReminders,
           checkedReminders := addKey k s.checkedReminders }

/-- One external stimulus: a host command, a firing tick timer, or a firing
restart-cooldown timer. -/
inductive Cmd where
  | update (evs : List Event) (now : Int)
  | start
  | stop
  | restartMsg
  | clearChecked
  | dismiss (k : RKey)
  | tickFires (now : Int) (fails : Bool)
  | cooldownFires
deriving DecidableEq, Repr

def step (s : WState) : Cmd → WState × List Msg
  | Cmd.update evs now => (updateEvents s evs now, [])
  | Cmd.start => (startProcessing s, [])
  | Cmd.stop => (stopProcessing s, [])
  | Cmd.restartMsg => restartOp s
  | Cmd.clearChecked => ({ s with checkedReminders := [] }, [])
  | Cmd.dismiss k => (dismissReminder s k, [])
  | Cmd.tickFires now fails =>
    match s.tickTimer with
    | none => (s, [])
    | some _ => processReminders { s with tickTimer := none } now fails
  | Cmd.cooldownFires =>
    if s.cooldownTimers = 0 then (s, [])
    else (startProcessing { s with cooldownTimers := s.cooldownTimers - 1 }, [])

def run (s : WState) : List Cmd → WState × List Msg
  | [] => (s, [])
  | c :: cs =>
    ((run (step s c).1 cs).1, (step s c).2 ++ (run (step s c).1 cs).2)

/-- Iterated invocations of `processReminders`, each tick given its captured
`now` and whether its body throws. -/
def runTicks (s : WState) : List (Int × Bool) → WState × List Msg
  | [] => (s, [])
  | t :: ts =>
    ((runTicks (processReminders s t.1 t.2).1 ts).1,
      (processReminders s t.1 t.2).2 ++
        (runTicks (processReminders s t.1 t.2).1 ts).2)

/-- No tick of the sequence reaches the failure cap (so `restart()` never
runs during the sequence). -/
def noRestartB (s : WState) : List (Int × Bool) → Bool
  | [] => true
  | t :: ts =>
    (!t.2 || decide (s.retryCount + 1 < maxRetries)) &&
      noRestartB (processReminders s t.1 t.2).1 ts

/-- How many times key `k` is surfaced in one message. -/
def emitted (k : RKey) : Msg → Nat
  | Msg.remindersTriggered rs => countKey k rs
  | _ => 0

def emitCount (k : RKey) : List Msg → Nat
  | [] => 0
  | m :: ms => emitted k m + emitCount k ms

structure Calendar where
  id : Nat
  name : String
deriving DecidableEq, Repr

/-- Result of the external fetch of the per-source sync endpoint: HTTP 200
with a body, a non-ok HTTP status, or a thrown error. -/
inductive FetchOutcome where
  | ok (message : String) (eventsCount : Nat)
  | httpError (status : Nat) (body : String)
  | threw (err : String)
deriving DecidableEq, Repr

/-- One entry of `syncResults`. -/
inductive SyncResult where
  | ok (calendar message : String) (eventsCount : Nat)
  | err (calendar error : String)
deriving DecidableEq, Repr

def SyncResult.isOk : SyncResult → Bool
  | SyncResult.ok .. => true
  | SyncResult.err .. => false

/-- The per-source `try`/`catch` body of `syncCalendars`. -/
def syncOne (c : Calendar) (f : FetchOutcome) : SyncResult :=
  match f with
  | FetchOutcome.ok m n => SyncResult.ok c.name m n
  | FetchOutcome.httpError st body =>
    SyncResult.err c.name ("HTTP " ++ toString st ++ ": " ++ body)
  | FetchOutcome.threw e => SyncResult.err c.name e

inductive SMsg where
  | syncCompleted (timestamp : Int) (results : List SyncResult)
      (successCount errorCount : Nat)
  | syncError (retryCount nextRetryIn : Nat)
  | syncRestarted
deriving DecidableEq, Repr

structure SState where
  calendars : List Calendar
  retryCount : Nat
  isRunning : Bool
  syncTimer : Option Nat
  cooldownTimers : Nat
deriving DecidableEq, Repr

def syncMaxRetries : Nat := 3

def syncDelayFor (retryCount : Nat) : Nat :=
  if retryCount > 0 then min (10000 * 2 ^ retryCount) 1800000 else 300000

def scheduleNextSync (s : SState) : SState :=
  if s.isRunning then { s with syncTimer := some (syncDelayFor s.retryCount) }
  else s

/-- `syncCalendars()`.  `fetch` gives each source's external outcome;
`batchFails` models an exception of the batch itself, outside the per-source
`try` (the only way the failure counter can grow). -/
def syncCalendars (s : SState) (fetch : Calendar → FetchOutcome) (now : Int)
    (batchFails : Bool) : SState × List SMsg :=
  if s.calendars = [] then (scheduleNextSync s, [])
  else if batchFails then
    let rc := min (s.retryCount + 1) syncMaxRetries
    let err := SMsg.syncError rc (min (10000 * 2 ^ rc) 1800000)
    if syncMaxRetries ≤ rc then
      ({ s with retryCount := 0, cooldownTimers := s.cooldownTimers + 1 },
        [err, SMsg.syncRestarted])
    else
      (scheduleNextSync { s with retryCount := rc }, [err])
  else
    (scheduleNextSync { s with retryCount := 0 },
      [SMsg.syncCompleted now (s.calendars.map fun c => syncOne c (fetch c))
        ((s.calendars.map fun c => syncOne c (fetch c)).filter
          SyncResult.isOk).length
        ((s.calendars.map fun c => syncOne c (fetch c)).filter
          fun r => !r.isOk).length])

/-- Number of `WORKER_HEARTBEAT` messages in a batch. -/
def hbCount : List Msg → Nat
  | [] => 0
  | Msg.heartbeat _ _ _ :: ms => 1 + hbCount ms
  | _ :: ms => hbCount ms

/-- Number of `WORKER_ERROR` messages in a batch. -/
def errCount : List Msg → Nat
  | [] => 0
  | Msg.workerError _ _ :: ms => 1 + errCount ms
  | _ :: ms => errCount ms

/-- `useReminderWorker` heartbeat monitor: the host treats the worker as
inactive when more than this many ms pass without a heartbeat. -/
def heartbeatMonitorThresholdMs : Nat := 120000

/-- An event starting at t = 900000 ms with a 15-minute reminder, so the
reminder key is `(1, "15 minutes before", 0)`. -/
def evW : Event := ⟨1, 900000, ["15 minutes before"]⟩

def kW : RKey := (1, "15 minutes before", 0)

def sW : WState := ⟨[parseEvent evW], [], [], 0, true, some 15000, 0⟩

/-- An event whose 5-minute reminder fire time `-300000` is far in the past
relative to `now = 300000`. -/
def evStale : Event := ⟨2, 0, ["5 minutes before"]⟩

def kS : RKey := (2, "5 minutes before", -300000)

def s0W : WState := ⟨[], [], [], 0, true, none, 0⟩

/-- A running worker with four accumulated failures, a previously fired key
and a previously dismissed key, and a pending tick timer. -/
def s3W : WState :=
  ⟨[], [(3, "1 hour before", 500)], [(4, "1 day before", 600)], 4, true,
    some 16000, 0⟩

def calA : Calendar := ⟨1, "A"⟩
def calB : Calendar := ⟨2, "B"⟩
def calC : Calendar := ⟨3, "C"⟩

def sSyncW : SState := ⟨[calA, calB, calC], 0, true, none, 0⟩

/-- External fetch where exactly the second source throws. -/
def fetchW : Calendar → FetchOutcome := fun c =>
  if c.id = 2 then FetchOutcome.threw "Failed to fetch"
  else FetchOutcome.ok "Sync successful" 4

theorem mem_addKey {k x : RKey} {l : List RKey} :
    x ∈ addKey k l ↔ x = k ∨ x ∈ l := by
  unfold addKey
  by_cases h : k ∈ l
  · simp only [if_pos h]
    constructor
    · exact Or.inr
    · rintro (rfl | hx)
      · exact h
      · exact hx
  · simp [if_neg h]

theorem addKey_of_mem {k : RKey} {l : List RKey} (h : k ∈ l) :
    addKey k l = l := by
  simp [addKey, h]

theorem mem_addKeys {x : RKey} {l ks : List RKey} :
    x ∈ addKeys l ks ↔ x ∈ l ∨ x ∈ ks := by
  induction ks generalizing l with
  | nil => simp [addKeys]
  | cons k ks ih =>
    show x ∈ addKeys (addKey k l) ks ↔ _
    rw [ih, mem_addKey]
    constructor
    · rintro ((rfl | hl) | hk)
      · exact Or.inr (List.mem_cons_self _ _)
      · exact Or.inl hl
      · exact Or.inr (List.mem_cons_of_mem _ hk)
    · rintro (hl | hk)
      · exact Or.inl (Or.inr hl)
      · rcases List.mem_cons.mp hk with rfl | hk
        · exact Or.inl (Or.inl rfl)
        · exact Or.inr hk

theorem countKey_eq_zero {k : RKey} {l : List RKey} :
    countKey k l = 0 ↔ k ∉ l := by
  induction l with
  | nil => simp [countKey]
  | cons x xs ih =>
    by_cases h : x = k
    · subst h; simp [countKey, ih]
    · simp [countKey, h, ih, Ne.symm h]

theorem one_le_countKey {k : RKey} {l : List RKey} (h : k ∈ l) :
    1 ≤ countKey k l := by
  by_contra hlt
  exact (countKey_eq_zero.mp (Nat.eq_zero_of_not_pos hlt)) h

theorem emitCount_append {k : RKey} {a b : List Msg} :
    emitCount k (a ++ b) = emitCount k a + emitCount k b := by
  induction a with
  | nil => simp [emitCount]
  | cons m ms ih => simp [emitCount, ih, Nat.add_assoc]

theorem countKey_pos {k : RKey} {l : List RKey} :
    0 < countKey k l ↔ k ∈ l := by
  constructor
  · intro h
    by_contra hk
    rw [countKey_eq_zero.mpr hk] at h
    exact Nat.lt_irrefl 0 h
  · exact one_le_countKey

theorem processKeys_checked_sub (now : Int) (dismissed : List RKey)
    (keys : List RKey) :
    ∀ (checked : List RKey) (x : RKey), x ∈ checked →
      x ∈ (processKeys now dismissed checked keys).1 := by
  induction keys with
  | nil => intro checked x hx; simpa [processKeys] using hx
  | cons k ks ih =>
    intro checked x hx
    by_cases h : (0 ≤ now - keyFire k ∧ now - keyFire k ≤ 120000) ∧
        k ∉ checked ∧ k ∉ dismissed
    · simp only [processKeys, if_pos h]
      exact ih (k :: checked) x (List.mem_cons_of_mem _ hx)
    · simp only [processKeys, if_neg h]
      exact ih checked x hx

theorem processKeys_trig_checked (now : Int) (dismissed : List RKey)
    (keys : List RKey) :
    ∀ (checked : List RKey) (x : RKey),
      x ∈ (processKeys now dismissed checked keys).2 →
      x ∈ (processKeys now dismissed checked keys).1 := by
  induction keys with
  | nil => intro checked x hx; simp [processKeys] at hx
  | cons k ks ih =>
    intro checked x hx
    by_cases h : (0 ≤ now - keyFire k ∧ now - keyFire k ≤ 120000) ∧
        k ∉ checked ∧ k ∉ dismissed
    · simp only [processKeys, if_pos h] at hx ⊢
      rcases List.mem_cons.mp hx with rfl | hx
      · exact processKeys_checked_sub now dismissed ks (x :: checked) x
          (List.mem_cons_self _ _)
      · exact ih (k :: checked) x hx
    · simp only [processKeys, if_neg h] at hx ⊢
      exact ih checked x hx

theorem processKeys_not_trig_of_checked (now : Int) (dismissed : List RKey)
    (keys : List RKey) :
    ∀ (checked : List RKey) (x : RKey), x ∈ checked →
      x ∉ (processKeys now dismissed checked keys).2 := by
  induction keys with
  | nil => intro checked x _ hx; simp [processKeys] at hx
  | cons k ks ih =>
    intro checked x hx hmem
    by_cases h : (0 ≤ now - keyFire k ∧ now - keyFire k ≤ 120000) ∧
        k ∉ checked ∧ k ∉ dismissed
    · simp only [processKeys, if_pos h] at hmem
      rcases List.mem_cons.mp hmem with rfl | hmem
      · exact h.2.1 hx
      · exact ih (k :: checked) x (List.mem_cons_of_mem _ hx) hmem
    · simp only [processKeys, if_neg h] at hmem
      exact ih checked x hx hmem

theorem processKeys_not_trig_of_dismissed (now : Int) (dismissed : List RKey)
    (keys : List RKey) :
    ∀ (checked : List RKey) (x : RKey), x ∈ dismissed →
      x ∉ (processKeys now dismissed checked keys).2 := by
  induction keys with
  | nil => intro checked x _ hx; simp [processKeys] at hx
  | cons k ks ih =>
    intro checked x hx hmem
    by_cases h : (0 ≤ now - keyFire k ∧ now - keyFire k ≤ 120000) ∧
        k ∉ checked ∧ k ∉ dismissed
    · simp only [processKeys, if_pos h] at hmem
      rcases List.mem_cons.mp hmem with rfl | hmem
      · exact h.2.2 hx
      · exact ih (k :: checked) x hx hmem
    · simp only [processKeys, if_neg h] at hmem
      exact ih checked x hx hmem

theorem processKeys_countKey_le_one (now : Int) (dismissed : List RKey)
    (keys : List RKey) :
    ∀ (checked : List RKey) (x : RKey),
      countKey x (processKeys now dismissed checked keys).2 ≤ 1 := by
  induction keys with
  | nil => intro checked x; simp [processKeys, countKey]
  | cons k ks ih =>
    intro checked x
    by_cases h : (0 ≤ now - keyFire k ∧ now - keyFire k ≤ 120000) ∧
        k ∉ checked ∧ k ∉ dismissed
    · simp only [processKeys, if_pos h, countKey]
      by_cases hkx : k = x
      · subst hkx
        have hz : countKey k (processKeys now dismissed (k :: checked) ks).2 = 0 :=
          countKey_eq_zero.mpr
            (processKeys_not_trig_of_checked now dismissed ks (k :: checked) k
              (List.mem_cons_self _ _))
        simp [hz]
      · simp only [if_neg hkx, Nat.zero_add]
        exact ih (k :: checked) x
    · simp only [processKeys, if_neg h]
      exact ih checked x

theorem processKeys_fires (now : Int) (dismissed : List RKey)
    (keys : List RKey) :
    ∀ (checked : List RKey) (x : RKey), x ∈ keys →
      0 ≤ now - keyFire x → now - keyFire x ≤ 120000 →
      x ∉ checked → x ∉ dismissed →
      x ∈ (processKeys now dismissed checked keys).2 := by
  induction keys with
  | nil => intro checked x hx; simp at hx
  | cons k ks ih =>
    intro checked x hx h0 hW hc hd
    by_cases hkx : k = x
    · subst hkx
      have h : (0 ≤ now - keyFire k ∧ now - keyFire k ≤ 120000) ∧
          k ∉ checked ∧ k ∉ dismissed := ⟨⟨h0, hW⟩, hc, hd⟩
      simp only [processKeys, if_pos h]
      exact List.mem_cons_self _ _
    · have hx' : x ∈ ks := by
        rcases List.mem_cons.mp hx with rfl | hx'
        · exact absurd rfl hkx
        · exact hx'
      by_cases h : (0 ≤ now - keyFire k ∧ now - keyFire k ≤ 120000) ∧
          k ∉ checked ∧ k ∉ dismissed
      · simp only [processKeys, if_pos h]
        refine List.mem_cons_of_mem _ (ih (k :: checked) x hx' h0 hW ?_ hd)
        intro hmem
        rcases List.mem_cons.mp hmem with rfl | hmem
        · exact hkx rfl
        · exact hc hmem
      · simp only [processKeys, if_neg h]
        exact ih checked x hx' h0 hW hc hd

theorem processKeys_trig_sound (now : Int) (dismissed : List RKey)
    (keys : List RKey) :
    ∀ (checked : List RKey) (x : RKey),
      x ∈ (processKeys now dismissed checked keys).2 →
      x ∈ keys ∧ (0 ≤ now - keyFire x ∧ now - keyFire x ≤ 120000) ∧
        x ∉ checked ∧ x ∉ dismissed := by
  induction keys with
  | nil => intro checked x hx; simp [processKeys] at hx
  | cons k ks ih =>
    intro checked x hx
    by_cases h : (0 ≤ now - keyFire k ∧ now - keyFire k ≤ 120000) ∧
        k ∉ checked ∧ k ∉ dismissed
    · simp only [processKeys, if_pos h] at hx
      rcases List.mem_cons.mp hx with rfl | hx
      · exact ⟨List.mem_cons_self _ _, h.1, h.2.1, h.2.2⟩
      · obtain ⟨hks, hdue, hc, hd⟩ := ih (k :: checked) x hx
        exact ⟨List.mem_cons_of_mem _ hks, hdue,
          fun hm => hc (List.mem_cons_of_mem _ hm), hd⟩
    · simp only [processKeys, if_neg h] at hx
      obtain ⟨hks, hdue, hc, hd⟩ := ih checked x hx
      exact ⟨List.mem_cons_of_mem _ hks, hdue, hc, hd⟩

theorem processReminders_false_eq (s : WState) (now : Int) :
    processReminders s now false =
      (scheduleNextCheck { s with
          checkedReminders := (processKeys now s.dismissedReminders
            s.checkedReminders (allKeys s.events)).1,
          retryCount := 0 },
        (if (processKeys now s.dismissedReminders s.checkedReminders
            (allKeys s.events)).2 ≠ [] then
          [Msg.remindersTriggered (processKeys now s.dismissedReminders
            s.checkedReminders (allKeys s.events)).2]
        else []) ++
          [Msg.heartbeat now s.events.length
            (processKeys now s.dismissedReminders s.checkedReminders
              (allKeys s.events)).1.length]) := rfl

theorem processReminders_true_eq (s : WState) (now : Int) :
    processReminders s now true =
      (if maxRetries ≤ min (s.retryCount + 1) maxRetries then
        ((restartOp { s with
            retryCount := min (s.retryCount + 1) maxRetries }).1,
          Msg.workerError (min (s.retryCount + 1) maxRetries)
              (min (1000 * 2 ^ min (s.retryCount + 1) maxRetries) 300000) ::
            (restartOp { s with
              retryCount := min (s.retryCount + 1) maxRetries }).2)
      else
        (scheduleNextCheck { s with
            retryCount := min (s.retryCount + 1) maxRetries },
          [Msg.workerError (min (s.retryCount + 1) maxRetries)
            (min (1000 * 2 ^ min (s.retryCount + 1) maxRetries) 300000)])) :=
  rfl

theorem scheduleNextCheck_checked (s : WState) :
    (scheduleNextCheck s).checkedReminders = s.checkedReminders := by
  unfold scheduleNextCheck; split <;> rfl

theorem scheduleNextCheck_dismissed (s : WState) :
    (scheduleNextCheck s).dismissedReminders = s.dismissedReminders := by
  unfold scheduleNextCheck; split <;> rfl

theorem scheduleNextCheck_events (s : WState) :
    (scheduleNextCheck s).events = s.events := by
  unfold scheduleNextCheck; split <;> rfl

theorem scheduleNextCheck_retryCount (s : WState) :
    (scheduleNextCheck s).retryCount = s.retryCount := by
  unfold scheduleNextCheck; split <;> rfl

theorem tick_false_checked (s : WState) (now : Int) :
    (processReminders s now false).1.checkedReminders =
      (processKeys now s.dismissedReminders s.checkedReminders
        (allKeys s.events)).1 := by
  rw [processReminders_false_eq]
  exact scheduleNextCheck_checked _

theorem tick_dismissed (s : WState) (now : Int) (fails : Bool) :
    (processReminders s now fails).1.dismissedReminders =
      s.dismissedReminders := by
  cases fails
  · rw [processReminders_false_eq]
    exact scheduleNextCheck_dismissed _
  · rw [processReminders_true_eq]
    split
    · rfl
    · exact scheduleNextCheck_dismissed _

theorem tick_events (s : WState) (now : Int) (fails : Bool) :
    (processReminders s now fails).1.events = s.events := by
  cases fails
  · rw [processReminders_false_eq]
    exact scheduleNextCheck_events _
  · rw [processReminders_true_eq]
    split
    · rfl
    · exact scheduleNextCheck_events _

theorem emitCount_tick_false (s : WState) (now : Int) (k : RKey) :
    emitCount k (processReminders s now false).2 =
      countKey k (processKeys now s.dismissedReminders s.checkedReminders
        (allKeys s.events)).2 := by
  rw [processReminders_false_eq]
  by_cases hr : (processKeys now s.dismissedReminders s.checkedReminders
      (allKeys s.events)).2 = []
  · rw [hr]; simp [emitCount, emitted, countKey]
  · simp [hr, emitCount, emitted]

theorem emitCount_tick_true (s : WState) (now : Int) (k : RKey) :
    emitCount k (processReminders s now true).2 = 0 := by
  rw [processReminders_true_eq]
  split <;> simp [emitCount, emitted, restartOp]

theorem tick_true_state (s : WState) (now : Int)
    (h : s.retryCount + 1 < maxRetries) :
    (processReminders s now true).1 =
      scheduleNextCheck { s with retryCount := s.retryCount + 1 } := by
  have hmin : min (s.retryCount + 1) maxRetries = s.retryCount + 1 :=
    Nat.min_eq_left (Nat.le_of_lt h)
  rw [processReminders_true_eq, hmin, if_neg (Nat.not_le_of_lt h)]

theorem tick_true_checked (s : WState) (now : Int)
    (h : s.retryCount + 1 < maxRetries) :
    (processReminders s now true).1.checkedReminders = s.checkedReminders := by
  rw [tick_true_state s now h]
  exact scheduleNextCheck_checked _

theorem runTicks_dismissed (ts : List (Int × Bool)) :
    ∀ s : WState, (runTicks s ts).1.dismissedReminders =
      s.dismissedReminders := by
  induction ts with
  | nil => intro s; simp [runTicks]
  | cons t ts ih =>
    intro s
    show (runTicks (processReminders s t.1 t.2).1 ts).1.dismissedReminders = _
    rw [ih, tick_dismissed]

theorem noRestartB_tail {s : WState} {t : Int × Bool} {ts : List (Int × Bool)}
    (h : noRestartB s (t :: ts) = true) :
    noRestartB (processReminders s t.1 t.2).1 ts = true := by
  unfold noRestartB at h
  rw [Bool.and_eq_true] at h
  exact h.2

theorem noRestartB_head {s : WState} {t : Int × Bool} {ts : List (Int × Bool)}
    (h : noRestartB s (t :: ts) = true) (ht : t.2 = true) :
    s.retryCount + 1 < maxRetries := by
  unfold noRestartB at h
  rw [Bool.and_eq_true] at h
  have h1 := h.1
  rw [ht] at h1
  simpa using h1

theorem runTicks_no_emit_of_dismissed (ts : List (Int × Bool)) :
    ∀ (s : WState) (k : RKey), k ∈ s.dismissedReminders →
      emitCount k (runTicks s ts).2 = 0 := by
  induction ts with
  | nil => intro s k _; simp [runTicks, emitCount]
  | cons t ts ih =>
    intro s k hk
    obtain ⟨n, f⟩ := t
    show emitCount k ((processReminders s n f).2 ++
      (runTicks (processReminders s n f).1 ts).2) = 0
    rw [emitCount_append]
    have hrest : emitCount k
        (runTicks (processReminders s n f).1 ts).2 = 0 := by
      refine ih _ k ?_
      rw [tick_dismissed]; exact hk
    have hhead : emitCount k (processReminders s n f).2 = 0 := by
      cases f
      · rw [emitCount_tick_false]
        exact countKey_eq_zero.mpr
          (processKeys_not_trig_of_dismissed n s.dismissedReminders
            (allKeys s.events) s.checkedReminders k hk)
      · exact emitCount_tick_true s n k
    rw [hhead, hrest]

theorem tick_checked_mono (s : WState) (now : Int) (fails : Bool) (k : RKey)
    (hno : s.retryCount + 1 < maxRetries ∨ fails = false)
    (hk : k ∈ s.checkedReminders) :
    k ∈ (processReminders s now fails).1.checkedReminders := by
  cases fails
  · rw [tick_false_checked]
    exact processKeys_checked_sub now s.dismissedReminders
      (allKeys s.events) s.checkedReminders k hk
  · rcases hno with hno | hno
    · rw [tick_true_checked s now hno]; exact hk
    · simp at hno

theorem runTicks_checked_mono (ts : List (Int × Bool)) :
    ∀ (s : WState) (k : RKey), noRestartB s ts = true →
      k ∈ s.checkedReminders →
      k ∈ (runTicks s ts).1.checkedReminders := by
  induction ts with
  | nil => intro s k _ hk; simpa [runTicks] using hk
  | cons t ts ih =>
    intro s k hno hk
    obtain ⟨n, f⟩ := t
    show k ∈ (runTicks (processReminders s n f).1 ts).1.checkedReminders
    refine ih _ k (noRestartB_tail hno) ?_
    refine tick_checked_mono s n f k ?_ hk
    cases f
    · exact Or.inr rfl
    · exact Or.inl (noRestartB_head hno rfl)

theorem runTicks_no_emit_of_checked (ts : List (Int × Bool)) :
    ∀ (s : WState) (k : RKey), noRestartB s ts = true →
      k ∈ s.checkedReminders →
      emitCount k (runTicks s ts).2 = 0 := by
  induction ts with
  | nil => intro s k _ _; simp [runTicks, emitCount]
  | cons t ts ih =>
    intro s k hno hk
    obtain ⟨n, f⟩ := t
    show emitCount k ((processReminders s n f).2 ++
      (runTicks (processReminders s n f).1 ts).2) = 0
    rw [emitCount_append]
    have hhead : emitCount k (processReminders s n f).2 = 0 := by
      cases f
      · rw [emitCount_tick_false]
        exact countKey_eq_zero.mpr
          (processKeys_not_trig_of_checked n s.dismissedReminders
            (allKeys s.events) s.checkedReminders k hk)
      · exact emitCount_tick_true s n k
    have hnext : k ∈ (processReminders s n f).1.checkedReminders := by
      refine tick_checked_mono s n f k ?_ hk
      cases f
      · exact Or.inr rfl
      · exact Or.inl (noRestartB_head hno rfl)
    rw [hhead, ih _ k (noRestartB_tail hno) hnext]

theorem runTicks_emit_le_one (ts : List (Int × Bool)) :
    ∀ (s : WState) (k : RKey), noRestartB s ts = true →
      emitCount k (runTicks s ts).2 ≤ 1 := by
  induction ts with
  | nil => intro s k _; simp [runTicks, emitCount]
  | cons t ts ih =>
    intro s k hno
    obtain ⟨n, f⟩ := t
    show emitCount k ((processReminders s n f).2 ++
      (runTicks (processReminders s n f).1 ts).2) ≤ 1
    rw [emitCount_append]
    cases f
    · by_cases hmem : k ∈ (processKeys n s.dismissedReminders
          s.checkedReminders (allKeys s.events)).2
      · have hhead : emitCount k (processReminders s n false).2 ≤ 1 := by
          rw [emitCount_tick_false]
          exact processKeys_countKey_le_one n s.dismissedReminders
            (allKeys s.events) s.checkedReminders k
        have hnext : k ∈ (processReminders s n false).1.checkedReminders := by
          rw [tick_false_checked]
          exact processKeys_trig_checked n s.dismissedReminders
            (allKeys s.events) s.checkedReminders k hmem
        have hrest : emitCount k
            (runTicks (processReminders s n false).1 ts).2 = 0 :=
          runTicks_no_emit_of_checked ts _ k (noRestartB_tail hno) hnext
        omega
      · have hhead : emitCount k (processReminders s n false).2 = 0 := by
          rw [emitCount_tick_false]
          exact countKey_eq_zero.mpr hmem
        have hrest : emitCount k
            (runTicks (processReminders s n false).1 ts).2 ≤ 1 :=
          ih _ k (noRestartB_tail hno)
        omega
    · have hhead : emitCount k (processReminders s n true).2 = 0 :=
        emitCount_tick_true s n k
      have hrest : emitCount k
          (runTicks (processReminders s n true).1 ts).2 ≤ 1 :=
        ih _ k (noRestartB_tail hno)
      omega

theorem step_dismissed_mono (s : WState) (c : Cmd) (k : RKey)
    (hk : k ∈ s.dismissedReminders) :
    k ∈ (step s c).1.dismissedReminders := by
  cases c with
  | update evs now => simpa [step, updateEvents] using hk
  | start =>
    simp only [step, startProcessing]
    split
    · exact hk
    · rw [scheduleNextCheck_dismissed]; exact hk
  | stop => simpa [step, stopProcessing] using hk
  | restartMsg => simpa [step, restartOp] using hk
  | clearChecked => simpa [step] using hk
  | dismiss k2 =>
    simp only [step, dismissReminder]
    exact mem_addKey.mpr (Or.inr hk)
  | tickFires now fails =>
    simp only [step]
    cases s.tickTimer
    · exact hk
    · rw [tick_dismissed]; exact hk
  | cooldownFires =>
    simp only [step]
    split
    · exact hk
    · simp only [startProcessing]
      split
      · exact hk
      · rw [scheduleNextCheck_dismissed]; exact hk

theorem step_no_emit_of_dismissed (s : WState) (c : Cmd) (k : RKey)
    (hk : k ∈ s.dismissedReminders) :
    emitCount k (step s c).2 = 0 := by
  cases c with
  | update evs now => simp [step, emitCount]
  | start => simp [step, emitCount]
  | stop => simp [step, emitCount]
  | restartMsg => simp [step, restartOp, emitCount, emitted]
  | clearChecked => simp [step, emitCount]
  | dismiss k2 => simp [step, emitCount]
  | tickFires now fails =>
    simp only [step]
    cases s.tickTimer
    · simp [emitCount]
    · cases fails
      · rw [emitCount_tick_false]
        exact countKey_eq_zero.mpr
          (processKeys_not_trig_of_dismissed now _ _ _ k hk)
      · exact emitCount_tick_true _ now k
  | cooldownFires =>
    simp only [step]
    split
    · simp [emitCount]
    · simp [emitCount]

theorem run_no_emit_of_dismissed (cmds : List Cmd) :
    ∀ (s : WState) (k : RKey), k ∈ s.dismissedReminders →
      emitCount k (run s cmds).2 = 0 ∧
        k ∈ (run s cmds).1.dismissedReminders := by
  induction cmds with
  | nil => intro s k hk; exact ⟨by simp [run, emitCount], by simpa [run] using hk⟩
  | cons c cs ih =>
    intro s k hk
    have hstep := step_dismissed_mono s c k hk
    obtain ⟨hrest, hmem⟩ := ih (step s c).1 k hstep
    constructor
    · show emitCount k ((step s c).2 ++ (run (step s c).1 cs).2) = 0
      rw [emitCount_append, step_no_emit_of_dismissed s c k hk, hrest]
    · exact hmem

theorem length_filter_add_length_filter_not (l : List SyncResult) :
    (l.filter SyncResult.isOk).length +
      (l.filter fun r => !r.isOk).length = l.length := by
  induction l with
  | nil => simp
  | cons r rs ih =>
    cases hr : r.isOk <;> simp [List.filter, hr, ih] <;> omega

theorem scheduleNextSync_retryCount (s : SState) :
    (scheduleNextSync s).retryCount = s.retryCount := by
  unfold scheduleNextSync; split <;> rfl

theorem parseOffset_realizes_table (t : String) :
    parseOffsetMinutes t = (specParse t).getD 0 := by
  unfold parseOffsetMinutes specParse specParserTable
  by_cases h1 : includesStr t "15 minutes" = true <;>
    by_cases h2 : includesStr t "30 minutes" = true <;>
      by_cases h3 : includesStr t "5 minutes" = true <;>
        by_cases h4 : includesStr t "2 minutes" = true <;>
          by_cases h5 : includesStr t "1 minute" = true <;>
            by_cases h6 : includesStr t "1 hour" = true <;>
              by_cases h7 : includesStr t "1 day" = true <;>
                simp [List.find?, h1, h2, h3, h4, h5, h6, h7]

/-- Claim C2.  The `reminder-utils.ts` / revised-worker parser realizes the
ordered most-specific-first table of the spec for every label and on the
claimed sample labels, but the inline chain of
`client/public/reminder-worker.js` tests `"5 minutes"` before `"15 minutes"`
and has no `"2 minutes"` pattern at all, so a label containing
`"15 minutes"` parses to 5 there and `"2 minutes before"` parses to absent,
refuting the "every parser instance" part of the claim. -/
theorem c2_parser_ordered_table :
    (∀ t : String, parseOffsetMinutes t = (specParse t).getD 0) ∧
    parseOffsetMinutes "15 minutes before" = 15 ∧
    parseOffsetMinutes "30 minutes before" = 30 ∧
    parseOffsetMinutes "2 minutes before" = 2 ∧
    parseOffsetMinutes "1 day before" = 1440 ∧
    parseOffsetMinutes "1 minute" = 1 ∧
    parseOffsetMinutes "no idea" = 0 ∧
    parseReminders ["no idea"] = [] ∧
    specParse "15 minutes before" = some 15 ∧
    publicChainOffset "15 minutes before" = some 5 ∧
    publicChainOffset "2 minutes before" = none :=
  ⟨parseOffset_realizes_table, by decide⟩

/-- Claim C6.  On a tick capturing time `now`, a reminder key of the working
set that is in neither `checkedReminders` nor `dismissedReminders` is emitted
iff `0 ≤ now - fireTime ≤ 120000`. -/
theorem c6_due_window_boundary (s : WState) (now : Int) (k : RKey)
    (hk : k ∈ allKeys s.events) (hc : k ∉ s.checkedReminders)
    (hd : k ∉ s.dismissedReminders) :
    0 < emitCount k (processReminders s now false).2 ↔
      (0 ≤ now - keyFire k ∧ now - keyFire k ≤ 120000) := by
  rw [emitCount_tick_false, countKey_pos]
  constructor
  · intro h
    exact (processKeys_trig_sound now _ _ _ k h).2.1
  · rintro ⟨h0, hW⟩
    exact processKeys_fires now _ _ _ k hk h0 hW hc hd

/-- Witness for C6: the reminder with fire time 0 fires at `now = 0`, does
not fire at `now = -1` (not yet due), and does not fire at
`now = 120001` (window over by 1 ms). -/
theorem c6_witness :
    (0 < emitCount kW (processReminders sW 0 false).2) ∧
    ¬ (0 < emitCount kW (processReminders sW (-1) false).2) ∧
    ¬ (0 < emitCount kW (processReminders sW 120001 false).2) := by
  refine ⟨?_, ?_, ?_⟩
  · exact (c6_due_window_boundary sW 0 kW (by decide) (by decide)
      (by decide)).mpr (by decide)
  · intro h
    have hd := (c6_due_window_boundary sW (-1) kW (by decide) (by decide)
      (by decide)).mp h
    exact absurd hd (by decide)
  · intro h
    have hd := (c6_due_window_boundary sW 120001 kW (by decide) (by decide)
      (by decide)).mp h
    exact absurd hd (by decide)

/-- Claim C7.  The next-tick delay is the 15000 ms base when
`retryCount = 0` and `min(1000 * 2^retryCount, 300000)` otherwise; within the
reachable failure range the delays strictly increase; and both a successful
tick and any `updateEvents` call reset the failure counter to 0. -/
theorem c7_backoff_with_ceiling (s : WState) (rc : Nat) (now : Int)
    (evs : List Event) :
    (s.isRunning = true →
      (scheduleNextCheck s).tickTimer =
        some (if s.retryCount = 0 then 15000
          else min (1000 * 2 ^ s.retryCount) 300000)) ∧
    (1 ≤ rc → rc ≤ 4 → delayFor rc < delayFor (rc + 1)) ∧
    (processReminders s now false).1.retryCount = 0 ∧
    (updateEvents s evs now).retryCount = 0 := by
  refine ⟨?_, ?_, ?_, ?_⟩
  · intro h
    unfold scheduleNextCheck delayFor
    rw [if_pos h]
    cases hrc : s.retryCount <;> simp
  · intro h1 h4
    interval_cases rc <;> decide
  · rw [processReminders_false_eq, scheduleNextCheck_retryCount]
  · simp [updateEvents]

/-- Witness for C7: with no failures the scheduled delay is the base
interval, and the third failure's delay 8000 ms is below the fourth's
16000 ms. -/
theorem c7_witness :
    (scheduleNextCheck s0W).tickTimer = some 15000 ∧
    delayFor 3 < delayFor 4 := by
  constructor
  · have h := (c7_backoff_with_ceiling s0W 3 0 []).1 (by decide)
    simpa using h
  · exact (c7_backoff_with_ceiling s0W 3 0 []).2.1 (by decide) (by decide)

/-- Claim C9.  A sync tick over a non-empty source list posts exactly one
`SYNC_COMPLETED` message whose results list has one entry per source in
order, with `successCount`/`errorCount` counting the succeeded and failed
sources (summing to the number of sources), and a per-source failure leaves
`retryCount` at 0 (no backoff path). -/
theorem c9_sync_batch_isolation (s : SState) (fetch : Calendar → FetchOutcome)
    (now : Int) (h : s.calendars ≠ []) :
    (syncCalendars s fetch now false).2 =
      [SMsg.syncCompleted now
        (s.calendars.map fun c => syncOne c (fetch c))
        ((s.calendars.map fun c => syncOne c (fetch c)).filter
          SyncResult.isOk).length
        ((s.calendars.map fun c => syncOne c (fetch c)).filter
          fun r => !r.isOk).length] ∧
    ((s.calendars.map fun c => syncOne c (fetch c)).filter
        SyncResult.isOk).length +
      ((s.calendars.map fun c => syncOne c (fetch c)).filter
        fun r => !r.isOk).length = s.calendars.length ∧
    (syncCalendars s fetch now false).1.retryCount = 0 := by
  refine ⟨?_, ?_, ?_⟩
  · simp [syncCalendars, h]
  · rw [length_filter_add_length_filter_not, List.length_map]
  · simp [syncCalendars, h, scheduleNextSync_retryCount]

/-- Witness for C9: three sources of which exactly the second throws yield
one completion message with two success entries and one error entry. -/
theorem c9_witness :
    ([calA, calB, calC] ≠ ([] : List Calendar)) ∧
    (syncCalendars sSyncW fetchW 7 false).2 =
      [SMsg.syncCompleted 7
        [SyncResult.ok "A" "Sync successful" 4,
         SyncResult.err "B" "Failed to fetch",
         SyncResult.ok "C" "Sync successful" 4] 2 1] := by
  refine ⟨by decide, ?_⟩
  rw [(c9_sync_batch_isolation sSyncW fetchW 7 (by decide)).1]
  decide

/-- Claim C10.  A tick whose body does not throw posts exactly one heartbeat
(carrying the captured `now`, the working-set size and the checked-set size)
and no error message — also when nothing fires — while a failing tick posts
one `WORKER_ERROR` and no heartbeat; 120000 ms is the host monitor's
freshness threshold for declaring the worker inactive. -/
theorem c10_heartbeat_iff_success (s : WState) (now : Int) (fails : Bool) :
    (fails = false →
      hbCount (processReminders s now fails).2 = 1 ∧
      Msg.heartbeat now s.events.length
          ((processKeys now s.dismissedReminders s.checkedReminders
            (allKeys s.events)).1.length) ∈ (processReminders s now fails).2 ∧
      errCount (processReminders s now fails).2 = 0) ∧
    (fails = true →
      hbCount (processReminders s now fails).2 = 0 ∧
      errCount (processReminders s now fails).2 = 1) ∧
    heartbeatMonitorThresholdMs = 120000 := by
  refine ⟨?_, ?_, rfl⟩
  · rintro rfl
    rw [processReminders_false_eq]
    by_cases hr : (processKeys now s.dismissedReminders s.checkedReminders
        (allKeys s.events)).2 = []
    · rw [hr]; simp [hbCount, errCount]
    · simp [hr, hbCount, errCount]
  · rintro rfl
    rw [processReminders_true_eq]
    split <;> simp [restartOp, hbCount, errCount]

/-- Witness for C10: an idle empty-working-set tick still heartbeats, and a
failing tick posts an error and no heartbeat. -/
theorem c10_witness :
    hbCount (processReminders s0W 42 false).2 = 1 ∧
    hbCount (processReminders s0W 42 true).2 = 0 ∧
    errCount (processReminders s0W 42 true).2 = 1 := by
  refine ⟨((c10_heartbeat_iff_success s0W 42 false).1 rfl).1, ?_, ?_⟩
  · exact ((c10_heartbeat_iff_success s0W 42 true).2.1 rfl).1
  · exact ((c10_heartbeat_iff_success s0W 42 true).2.1 rfl).2

/-- Claim C1.  With a fixed working set, a parseable reminder key not yet
checked or dismissed that is due on the first tick is emitted exactly once
over any further restart-free tick sequence; the emitting tick adds the key
to `checkedReminders`; any restart-free tick sequence starting with the key
checked or dismissed emits it zero times; and over any restart-free tick
sequence a key is emitted at most once. -/
theorem c1_reminder_fires_exactly_once (s : WState) (k : RKey) (n0 : Int)
    (ts : List (Int × Bool))
    (hk : k ∈ allKeys s.events) (hc : k ∉ s.checkedReminders)
    (hd : k ∉ s.dismissedReminders)
    (h0 : 0 ≤ n0 - keyFire k) (hW : n0 - keyFire k ≤ 120000)
    (hnr : noRestartB (processReminders s n0 false).1 ts = true) :
    emitCount k (runTicks s ((n0, false) :: ts)).2 = 1 ∧
    k ∈ (processReminders s n0 false).1.checkedReminders ∧
    (∀ (t : WState) (ms : List (Int × Bool)), noRestartB t ms = true →
      k ∈ t.checkedReminders ∨ k ∈ t.dismissedReminders →
      emitCount k (runTicks t ms).2 = 0) ∧
    (∀ (t : WState) (ms : List (Int × Bool)), noRestartB t ms = true →
      emitCount k (runTicks t ms).2 ≤ 1) := by
  have hfire : k ∈ (processKeys n0 s.dismissedReminders s.checkedReminders
      (allKeys s.events)).2 :=
    processKeys_fires n0 _ _ _ k hk h0 hW hc hd
  have hmem : k ∈ (processReminders s n0 false).1.checkedReminders := by
    rw [tick_false_checked]
    exact processKeys_trig_checked n0 _ _ _ k hfire
  refine ⟨?_, hmem, ?_, ?_⟩
  · show emitCount k ((processReminders s n0 false).2 ++
      (runTicks (processReminders s n0 false).1 ts).2) = 1
    rw [emitCount_append]
    have h1 : emitCount k (processReminders s n0 false).2 = 1 := by
      rw [emitCount_tick_false]
      have hle := processKeys_countKey_le_one n0 s.dismissedReminders
        (allKeys s.events) s.checkedReminders k
      have hge := one_le_countKey hfire
      omega
    rw [h1, runTicks_no_emit_of_checked ts _ k hnr hmem]
  · intro t ms hno hmem2
    rcases hmem2 with hmem2 | hmem2
    · exact runTicks_no_emit_of_checked ms t k hno hmem2
    · exact runTicks_no_emit_of_dismissed ms t k hmem2
  · intro t ms hno
    exact runTicks_emit_le_one ms t k hno

/-- Witness for C1: the 15-minute reminder fires exactly once over three
consecutive successful ticks inside and after its window. -/
theorem c1_witness :
    emitCount kW (runTicks sW [(0, false), (60000, false),
      (120000, false)]).2 = 1 :=
  (c1_reminder_fires_exactly_once sW kW 0 [(60000, false), (120000, false)]
    (by decide) (by decide) (by decide) (by decide) (by decide) (by decide)).1

/-- Claim C4.  `updateEvents` posts no message; when the previous working set
was empty it adds exactly the parsed reminder keys whose fire time is more
than 120000 ms before `now` to `checkedReminders`; when the previous working
set was non-empty it leaves `checkedReminders` unchanged; and a key already
checked stays checked through any later `updateEvents` and is never emitted
by later restart-free ticks. -/
theorem c4_first_update_backfill (s : WState) (evs : List Event)
    (now : Int) (k : RKey) (ts : List (Int × Bool)) :
    (step s (Cmd.update evs now)).2 = [] ∧
    (s.events = [] →
      (k ∈ (updateEvents s evs now).checkedReminders ↔
        k ∈ s.checkedReminders ∨
          (k ∈ allKeys (evs.map parseEvent) ∧ 120000 < now - keyFire k))) ∧
    (s.events ≠ [] →
      (updateEvents s evs now).checkedReminders = s.checkedReminders) ∧
    (k ∈ s.checkedReminders → k ∈ (updateEvents s evs now).checkedReminders) ∧
    (k ∈ s.checkedReminders →
      noRestartB (updateEvents s evs now) ts = true →
      emitCount k (runTicks (updateEvents s evs now) ts).2 = 0) := by
  have hmono : k ∈ s.checkedReminders →
      k ∈ (updateEvents s evs now).checkedReminders := by
    intro hk
    unfold updateEvents
    by_cases hse : s.events = []
    · simp only [hse, if_pos]
      exact mem_addKeys.mpr (Or.inl hk)
    · simp only [if_neg hse]
      exact hk
  refine ⟨rfl, ?_, ?_, hmono, ?_⟩
  · intro hse
    simp [updateEvents, initializePastReminders, hse, mem_addKeys,
      List.mem_filter]
  · intro hse
    simp [updateEvents, hse]
  · intro hk hno
    exact runTicks_no_emit_of_checked ts _ k hno (hmono hk)

/-- Witness for C4: a first update with a 10-minutes-stale reminder emits
nothing and marks it checked; a second update keeps it checked and a
following in-window tick does not fire it. -/
theorem c4_witness :
    (step s0W (Cmd.update [evStale] 300000)).2 = [] ∧
    kS ∈ (updateEvents s0W [evStale] 300000).checkedReminders ∧
    emitCount kS (runTicks (updateEvents (updateEvents s0W [evStale] 300000)
      [evStale] 300100) [(-250000, false)]).2 = 0 := by
  refine ⟨(c4_first_update_backfill s0W [evStale] 300000 kS []).1, ?_, ?_⟩
  · exact ((c4_first_update_backfill s0W [evStale] 300000 kS []).2.1
      (by decide)).mpr (by decide)
  · exact (c4_first_update_backfill (updateEvents s0W [evStale] 300000)
      [evStale] 300100 kS [(-250000, false)]).2.2.2.2 (by decide) (by decide)

/-- Claim C5.  `dismissReminder` puts the key in both sets and is idempotent,
and after it no sequence of worker commands — ticks (including failing ones
that trigger a restart), `CLEAR_CHECKED_REMINDERS`, restarts, updates, stops
and starts — ever emits the key, and the key stays dismissed. -/
theorem c5_dismiss_permanence (s : WState) (k : RKey) (cmds : List Cmd) :
    k ∈ (dismissReminder s k).dismissedReminders ∧
    k ∈ (dismissReminder s k).checkedReminders ∧
    dismissReminder (dismissReminder s k) k = dismissReminder s k ∧
    emitCount k (run (dismissReminder s k) cmds).2 = 0 ∧
    k ∈ (run (dismissReminder s k) cmds).1.dismissedReminders := by
  have hself : ∀ l : List RKey, k ∈ addKey k l :=
    fun l => mem_addKey.mpr (Or.inl rfl)
  have hrun := run_no_emit_of_dismissed cmds (dismissReminder s k) k
    (hself s.dismissedReminders)
  refine ⟨hself _, hself _, ?_, hrun.1, hrun.2⟩
  unfold dismissReminder
  rw [addKey_of_mem (hself s.dismissedReminders),
    addKey_of_mem (hself s.checkedReminders)]

/-- Claim C3.  When a failing tick reaches the failure cap the restart
resets `retryCount`, clears `checkedReminders`, keeps `dismissedReminders`
and posts `WORKER_RESTARTED` — but after the 5-second cooldown fires,
`startProcessing` sees `isRunning = true` and returns without scheduling, so
the engine is left running with no pending tick at all: it stops forever
instead of resuming. -/
theorem c3_restart_never_resumes :
    (run s3W [Cmd.tickFires 0 true, Cmd.cooldownFires]).1.retryCount = 0 ∧
    (run s3W [Cmd.tickFires 0 true, Cmd.cooldownFires]).1.checkedReminders
      = [] ∧
    (run s3W [Cmd.tickFires 0 true, Cmd.cooldownFires]).1.dismissedReminders
      = s3W.dismissedReminders ∧
    Msg.workerRestarted ∈ (run s3W [Cmd.tickFires 0 true,
      Cmd.cooldownFires]).2 ∧
    (run s3W [Cmd.tickFires 0 true, Cmd.cooldownFires]).1.isRunning = true ∧
    (run s3W [Cmd.tickFires 0 true, Cmd.cooldownFires]).1.tickTimer = none ∧
    (run s3W [Cmd.tickFires 0 true, Cmd.cooldownFires]).1.cooldownTimers
      = 0 := by
  decide

/-- Claim C8.  `stopProcessing` is idempotent, cancels the pending tick and
clears `isRunning` — but a restart cooldown pending at the moment of the stop
is not cancellable: when it fires, `startProcessing` re-arms the engine
(`isRunning = true`, a tick scheduled at the base interval) and a later tick
runs and heartbeats although `start` was never sent again. -/
theorem c8_stop_is_resurrected_by_cooldown :
    stopProcessing (stopProcessing s3W) = stopProcessing s3W ∧
    (stopProcessing s3W).isRunning = false ∧
    (stopProcessing s3W).tickTimer = none ∧
    (run s3W [Cmd.tickFires 0 true, Cmd.stop]).1.isRunning = false ∧
    (run s3W [Cmd.tickFires 0 true, Cmd.stop]).1.tickTimer = none ∧
    (run s3W [Cmd.tickFires 0 true, Cmd.stop,
      Cmd.cooldownFires]).1.isRunning = true ∧
    (run s3W [Cmd.tickFires 0 true, Cmd.stop,
      Cmd.cooldownFires]).1.tickTimer = some 15000 ∧
    Msg.heartbeat 100 0 0 ∈ (run s3W [Cmd.tickFires 0 true, Cmd.stop,
      Cmd.cooldownFires, Cmd.tickFires 100 false]).2 := by
  decide

end VibeCal
